import Mathlib

/-!
Verification of the clearsky router of pvcast
(source file `src/pvcast/webserver/routers/clearsky.py`).

The pandas objects used by the router are embedded shallowly:

* a pandas `Series` with string timestamp labels becomes an ordered
  association list `List (String × ℚ)`;
* the multi-index dataframe `result_df` becomes a `DataFrame` record with a
  fixed column list, a row index, and a cell function returning
  `Option ℚ` (`none` models a NaN / never-written cell);
* `df[col] = series` becomes `DataFrame.setCol`, which reproduces the pandas
  behaviour that assigning a series to a dataframe with an empty row index
  adopts the index of the series, while otherwise the series is aligned to
  the existing index by label (labels absent from the series give NaN);
* `df[metric].sum(axis=1)` becomes `DataFrame.metricSum`, which sums the
  defined cells of the columns under `metric` and skips missing cells, as
  the pandas default `skipna=True` does;
* `df.round(0).astype(int)` becomes the cellwise `roundHalfEven`, the
  numpy rounding used by pandas.

Timestamp labels are modelled as the already `strftime`-formatted strings:
the router converts both series indices to strings before any dataframe
write, so every label the dataframe ever sees is a string.

The plant registry (`PVSystemManager`), the forecasting call
(`pvplant.clearsky.run`) and the weather date source are external
collaborators of the router; they are abstracted by `Env`: the list of
registry keys, a lookup function returning the (already string-indexed)
forecast result of a plant, and the timezone of the manager location.
-/

namespace Pvcast

/-- A pandas Series with string timestamp labels and rational values,
modelled as an ordered association list of label/value pairs. -/
abbrev Series := List (String × ℚ)

/-- Label-based lookup in a series: the value at the first occurrence of the
label, `none` when the label is absent.  This is the alignment pandas
performs when a series is assigned into a dataframe. -/
def Series.lookupLabel (s : Series) (t : String) : Option ℚ :=
  (s.find? (fun pr => pr.1 == t)).map Prod.snd

/-- Helper for `Series.cumsum`: running sum with accumulator `acc`. -/
def cumsumFrom (acc : ℚ) : Series → Series
  | [] => []
  | (t, v) :: rest => (t, acc + v) :: cumsumFrom (acc + v) rest

/-- The pandas `Series.cumsum`: the running sum of the values, keeping the
labels. -/
def Series.cumsum (s : Series) : Series := cumsumFrom 0 s

/-- The multi-index dataframe `result_df` of the router: a fixed list of
`(metric, plant)` columns, a row index of timestamp labels, and a cell
function where `none` models NaN (a cell that was never written). -/
structure DataFrame where
  cols : List (String × String)
  index : List String
  data : String × String → String → Option ℚ

/--`df[key] = s` for a dataframe with multi-index columns: if the row index
is empty the dataframe adopts the index of the assigned series (pandas
`_ensure_valid_index`), otherwise the series is aligned to the existing
index by label. -/
def DataFrame.setCol (df : DataFrame) (key : String × String) (s : Series) : DataFrame :=
  { cols := df.cols
    index := if df.index.isEmpty then s.map Prod.fst else df.index
    data := fun k t => if k = key then s.lookupLabel t else df.data k t }

/-- `df[metric].sum(axis=1)`: for every row label, the sum of the defined
cells of the columns whose first level equals `metric`; missing cells are
skipped (`skipna=True`), i.e. contribute `0`. -/
def DataFrame.metricSum (df : DataFrame) (metric : String) : Series :=
  df.index.map fun t =>
    (t, ((df.cols.filter (fun c => c.1 == metric)).map
          (fun c => (df.data c t).getD 0)).sum)

/-- `result_df.isnull().values.any()`: some cell of some column at some row
label is missing. -/
def DataFrame.hasNull (df : DataFrame) : Bool :=
  df.cols.any fun c => df.index.any fun t => (df.data c t).isNone

/-- The `ForecastResult` produced by `pvplant.clearsky.run`, after the
router has converted both indices to timestamp strings. -/
structure ForecastResult where
  ac_power : Series
  ac_energy : Series

/-- The external collaborators of the router: the keys of
`pv_system_mngr.pv_plants`, the composition of `get_pv_plant` with the
forecast run (`none` models the `KeyError` of an unknown plant name), and
`pv_system_mngr.location.tz`. -/
structure Env where
  registryKeys : List String
  lookup : String → Option ForecastResult
  timezone : String

/-- ASCII lower-casing of one character, as python `str.lower` does on the
ASCII plant names of the router. -/
def lowerChar (c : Char) : Char :=
  if 65 ≤ c.toNat ∧ c.toNat ≤ 90 then Char.ofNat (c.toNat + 32) else c

/-- ASCII lower-casing of a string, the python `str.lower` of the router. -/
def lowerString (s : String) : String := String.mk (s.data.map lowerChar)

/-- `plant_name.name.lower() == "all"`. -/
def isAllArg (plantName : String) : Bool := lowerString plantName == "all"

/-- `list(pv_system_mngr.pv_plants.keys()) if all_arg else [plant_name.name]`. -/
def resolvedNames (env : Env) (plantName : String) : List String :=
  if isAllArg plantName then env.registryKeys else [plantName]

/-- The up-front column schema of `result_df`: the `cols` list built before
the plant loop, grouped by metric with the requested plants in request
order, and in all mode the three `Total` columns appended last. -/
def mkCols (names : List String) (allArg : Bool) : List (String × String) :=
  names.map (fun p => ("watt", p))
    ++ names.map (fun p => ("watt_hours", p))
    ++ names.map (fun p => ("watt_hours_cumsum", p))
    ++ (if allArg then [("watt_hours", "Total")] else [])
    ++ (if allArg then [("watt_hours_cumsum", "Total")] else [])
    ++ (if allArg then [("watt", "Total")] else [])

/-- `pd.DataFrame(columns=multi_index)`: the schema columns, an empty row
index, and no cell ever written. -/
def initTable (names : List String) (allArg : Bool) : DataFrame :=
  { cols := mkCols names allArg, index := [], data := fun _ _ => none }

/-- One iteration of the plant loop.  The state is the dataframe together
with the `ac_power` local variable, which persists across iterations and
stays unchanged when the registry lookup raises `KeyError` (the `except`
branch does `continue`). -/
def processPlant (lk : String → Option ForecastResult)
    (st : DataFrame × Option Series) (p : String) : DataFrame × Option Series :=
  match lk p with
  | none => st
  | some fr =>
      let df1 := st.1.setCol ("watt", p) fr.ac_power
      let df2 := df1.setCol ("watt_hours", p) fr.ac_energy
      let df3 := df2.setCol ("watt_hours_cumsum", p) fr.ac_energy.cumsum
      (df3, some fr.ac_power)

/-- The `if all_arg` block: the three `Total` columns, written in the order
`watt`, `watt_hours`, `watt_hours_cumsum`, each from the metric sum of the
dataframe as it stands at that point. -/
def addTotals (df : DataFrame) : DataFrame :=
  let df1 := df.setCol ("watt", "Total") (df.metricSum "watt")
  let df2 := df1.setCol ("watt_hours", "Total") (df1.metricSum "watt_hours")
  df2.setCol ("watt_hours_cumsum", "Total") (df2.metricSum "watt_hours_cumsum")

/-- The plant loop: the dataframe after all plants were processed together
with the final value of the `ac_power` local (`none` when no plant was ever
processed successfully, modelling the unbound local). -/
def loopState (env : Env) (plantName : String) : DataFrame × Option Series :=
  (resolvedNames env plantName).foldl (processPlant env.lookup)
    (initTable (resolvedNames env plantName) (isAllArg plantName), none)

/-- The plant loop followed by the total block: the assembled `result_df`
(before the NaN check) together with the final value of the `ac_power`
local. -/
def buildTable (env : Env) (plantName : String) : DataFrame × Option Series :=
  if isAllArg plantName then
    (addTotals (loopState env plantName).1, (loopState env plantName).2)
  else loopState env plantName

/-- The value of the `ac_power` local after the loop: the power series of
the last plant whose registry lookup succeeded. -/
def lastSuccessfulPower (lk : String → Option ForecastResult) (ns : List String) :
    Option Series :=
  ns.foldl (fun acc p => match lk p with
    | some fr => some fr.ac_power
    | none => acc) none

/-- The assembled `result_df` of a request. -/
def resultDf (env : Env) (plantName : String) : DataFrame :=
  (buildTable env plantName).1

/-- Rounding to the nearest integer with ties to even: the numpy rounding
behind `result_df.round(0).astype(int)`. -/
def roundHalfEven (q : ℚ) : ℤ :=
  if q - q.floor < 1 / 2 then q.floor
  else if 1 / 2 < q - q.floor then q.floor + 1
  else if q.floor % 2 = 0 then q.floor else q.floor + 1

/-- First-occurrence deduplication, with the labels already seen as the
second argument. -/
def dedupFirstGo : List String → List String → List String
  | [], _ => []
  | a :: rest, seen =>
      if a ∈ seen then dedupFirstGo rest seen else a :: dedupFirstGo rest (a :: seen)

/-- The distinct elements of a list in first-occurrence order. -/
def dedupFirst (l : List String) : List String := dedupFirstGo l []

/-- Modelled from the spec: `multi_idx_to_nested_dict` lives in
`pvcast/webserver/routers/helpers.py`, which is absent from src.  Spec 4.5:
the rounded dataframe is transposed and folded into
metric to plant to timestamp-string to integer, preserving the
deterministic column order as the insertion order of the nested mapping. -/
def toNested (df : DataFrame) : List (String × List (String × List (String × ℤ))) :=
  (dedupFirst (df.cols.map Prod.fst)).map fun m =>
    (m, (df.cols.filter (fun c => c.1 == m)).map fun c =>
      (c.2, df.index.map fun t => (t, roundHalfEven ((df.data c t).getD 0))))

/-- Lookup in the nested result: the value of metric `m`, plant `p`,
timestamp `t`. -/
def nestedGet (res : List (String × List (String × List (String × ℤ))))
    (m p t : String) : Option ℤ :=
  ((res.find? (fun pr => pr.1 == m)).map Prod.snd).bind fun pl =>
    ((pl.find? (fun pr => pr.1 == p)).map Prod.snd).bind fun tl =>
      (tl.find? (fun pr => pr.1 == t)).map Prod.snd

/-- The response model of the router (`ClearskyModel`).  The `end` field of
the python model is called `endTs` here because `end` is a Lean keyword;
`startTs` is named to match. -/
structure ClearskyModel where
  interval : String
  startTs : String
  endTs : String
  timezone : String
  result : List (String × List (String × List (String × ℤ)))
deriving DecidableEq

/-- The ways the handler can fail.  `nanError` is the `ValueError` raised on
a NaN cell (the IncompleteResultError of the spec); `unboundLocal` is the
`UnboundLocalError` raised when `ac_power` is read in the response block
without any plant having been processed; `indexError` is the `IndexError`
of `ac_power.index[0]` on an empty series; `notFound` models an HTTP
not-found failure, which the handler never raises. -/
inductive PostError
  | nanError
  | unboundLocal
  | indexError
  | notFound
deriving DecidableEq

/-- The `post` handler: build the table, raise on any NaN cell, then build
the response from the nested rounded table and the first/last label of the
`ac_power` local. -/
def post (env : Env) (plantName : String) (interval : String) :
    Except PostError ClearskyModel :=
  let st := buildTable env plantName
  if st.1.hasNull then .error .nanError
  else
    match st.2 with
    | none => .error .unboundLocal
    | some acPower =>
        match acPower.head?, acPower.getLast? with
        | some hd, some lastPr =>
            .ok { interval := interval
                  startTs := hd.1
                  endTs := lastPr.1
                  timezone := env.timezone
                  result := toNested st.1 }
        | _, _ => .error .indexError

/-- Modelled from the spec: `weather_api.start_forecast` is defined in
`pvcast/weather/weather.py`, which is absent from src.  Spec 4.1: with no
explicit start the window starts at the current time. -/
def start_forecast (now : ℤ) : ℤ := now

/-- Modelled from the spec: `weather_api.end_forecast` is defined in
`pvcast/weather/weather.py`, which is absent from src.  Spec 4.1: with no
explicit end the window ends at the current time plus the interval. -/
def end_forecast (now interval : ℤ) : ℤ := now + interval

/-- The `(start, end)` pair the router passes to
`weather_api.get_source_dates`: the request body bounds when a body is
given, the forecast defaults otherwise. -/
def sourceWindow (now interval : ℤ) : Option (ℤ × ℤ) → ℤ × ℤ
  | none => (start_forecast now, end_forecast now interval)
  | some se => se

/-! ### Basic lemmas about series -/

theorem lookupLabel_nil (t : String) : Series.lookupLabel [] t = none := rfl

theorem lookupLabel_cons (pr : String × ℚ) (s : Series) (t : String) :
    Series.lookupLabel (pr :: s) t =
      if pr.1 == t then some pr.2 else s.lookupLabel t := by
  simp only [Series.lookupLabel, List.find?_cons]
  cases h : pr.1 == t <;> simp [h]

theorem lookupLabel_map_of_mem (ts : List String) (g : String → ℚ) (t : String)
    (h : t ∈ ts) :
    Series.lookupLabel (ts.map fun u => (u, g u)) t = some (g t) := by
  induction ts with
  | nil => cases h
  | cons a tl ih =>
      rw [List.map_cons, lookupLabel_cons]
      rcases List.mem_cons.mp h with h1 | h1
      · subst h1; simp
      · by_cases ha : a = t
        · subst ha; simp
        · simpa [ha] using ih h1

theorem lookupLabel_get_of_nodup (s : Series) (hnd : (s.map Prod.fst).Nodup)
    (k : ℕ) (hk : k < s.length) :
    s.lookupLabel ((s.map Prod.fst).get ⟨k, by simpa using hk⟩) =
      some ((s.get ⟨k, hk⟩).2) := by
  simp only [List.get_eq_getElem]
  induction s generalizing k with
  | nil => exact absurd hk (by simp)
  | cons pr tl ih =>
      rw [List.map_cons] at hnd
      cases k with
      | zero => simp [lookupLabel_cons]
      | succ k =>
          have hk1 : k < tl.length := by simpa using hk
          have hne : pr.1 ≠ tl[k].1 := by
            intro he
            refine (List.nodup_cons.mp hnd).1 ?_
            rw [he]
            exact List.mem_map_of_mem Prod.fst (List.getElem_mem hk1)
          have ihh := ih (List.nodup_cons.mp hnd).2 k hk1
          simp only [List.map_cons, List.getElem_cons_succ, List.getElem_map] at ihh ⊢
          rw [lookupLabel_cons]
          simp [hne, ihh]

theorem map_lookupLabel_of_nodup (s : Series) (hnd : (s.map Prod.fst).Nodup) :
    (s.map Prod.fst).map (fun t => (s.lookupLabel t).getD 0) = s.map Prod.snd := by
  apply List.ext_get
  · simp
  · intro k h1 h2
    have hk : k < s.length := by simpa using h2
    have hl := lookupLabel_get_of_nodup s hnd k hk
    simp only [List.get_eq_getElem, List.getElem_map] at hl ⊢
    rw [hl]
    rfl

theorem cumsumFrom_map_fst (acc : ℚ) (s : Series) :
    (cumsumFrom acc s).map Prod.fst = s.map Prod.fst := by
  induction s generalizing acc with
  | nil => rfl
  | cons pr tl ih => cases pr with | mk t v => simp [cumsumFrom, ih]

theorem cumsum_map_fst (s : Series) : s.cumsum.map Prod.fst = s.map Prod.fst :=
  cumsumFrom_map_fst 0 s

theorem cumsumFrom_length (acc : ℚ) (s : Series) :
    (cumsumFrom acc s).length = s.length := by
  induction s generalizing acc with
  | nil => rfl
  | cons pr tl ih => cases pr with | mk t v => simp [cumsumFrom, ih]

theorem cumsumFrom_get (acc : ℚ) (s : Series) (k : ℕ) (hk : k < s.length) :
    (cumsumFrom acc s).get ⟨k, by rw [cumsumFrom_length]; exact hk⟩ =
      ((s.get ⟨k, hk⟩).1, acc + ((s.map Prod.snd).take (k + 1)).sum) := by
  induction s generalizing acc k with
  | nil => exact absurd hk (by simp)
  | cons pr tl ih =>
      cases pr with | mk t v =>
      cases k with
      | zero => simp [cumsumFrom]
      | succ k =>
          have hk1 : k < tl.length := by simpa using hk
          have := ih (acc + v) k hk1
          simp only [cumsumFrom, List.get_cons_succ] at this ⊢
          rw [this]
          simp [add_assoc]

theorem cumsum_get (s : Series) (k : ℕ) (hk : k < s.length) :
    s.cumsum.get ⟨k, by rw [Series.cumsum, cumsumFrom_length]; exact hk⟩ =
      ((s.get ⟨k, hk⟩).1, ((s.map Prod.snd).take (k + 1)).sum) := by
  have h := cumsumFrom_get 0 s k hk
  rw [zero_add] at h
  exact h

/-! ### Basic lemmas about dataframe mutation -/

theorem setCol_cols (df : DataFrame) (key : String × String) (s : Series) :
    (df.setCol key s).cols = df.cols := rfl

theorem setCol_data (df : DataFrame) (key : String × String) (s : Series)
    (k : String × String) (t : String) :
    (df.setCol key s).data k t = if k = key then s.lookupLabel t else df.data k t := rfl

theorem setCol_index (df : DataFrame) (key : String × String) (s : Series) :
    (df.setCol key s).index = if df.index.isEmpty then s.map Prod.fst else df.index := rfl

theorem setCol_index_stable (df : DataFrame) (key : String × String) (s : Series)
    (ts : List String) (hdf : df.index = ts) (hs : s.map Prod.fst = ts) :
    (df.setCol key s).index = ts := by
  rw [setCol_index, hdf, hs]
  rcases ts with _ | _ <;> simp

/-! ### Lemmas about the plant loop -/

theorem processPlant_cols (lk : String → Option ForecastResult)
    (st : DataFrame × Option Series) (a : String) :
    (processPlant lk st a).1.cols = st.1.cols := by
  cases h : lk a <;> simp [processPlant, h, setCol_cols]

theorem foldPP_cols (lk : String → Option ForecastResult) (ns : List String)
    (st : DataFrame × Option Series) :
    (ns.foldl (processPlant lk) st).1.cols = st.1.cols := by
  induction ns generalizing st with
  | nil => rfl
  | cons a tl ih => rw [List.foldl_cons, ih, processPlant_cols]

theorem processPlant_data_ne (lk : String → Option ForecastResult)
    (st : DataFrame × Option Series) (a : String) (m q t : String) (hq : q ≠ a) :
    (processPlant lk st a).1.data (m, q) t = st.1.data (m, q) t := by
  cases h : lk a with
  | none => simp [processPlant, h]
  | some fr => simp [processPlant, h, setCol_data, Prod.mk.injEq, hq]

theorem foldPP_data_not_mem (lk : String → Option ForecastResult) (ns : List String)
    (st : DataFrame × Option Series) (m q t : String) (hq : q ∉ ns) :
    (ns.foldl (processPlant lk) st).1.data (m, q) t = st.1.data (m, q) t := by
  induction ns generalizing st with
  | nil => rfl
  | cons a tl ih =>
      rw [List.foldl_cons, ih _ (fun h => hq (List.mem_cons_of_mem a h)),
        processPlant_data_ne]
      exact fun h => hq (h ▸ List.mem_cons_self a tl)

theorem foldPP_data_none (lk : String → Option ForecastResult) (ns : List String)
    (st : DataFrame × Option Series) (m q t : String) (hq : lk q = none) :
    (ns.foldl (processPlant lk) st).1.data (m, q) t = st.1.data (m, q) t := by
  induction ns generalizing st with
  | nil => rfl
  | cons a tl ih =>
      rw [List.foldl_cons, ih]
      by_cases ha : q = a
      · subst ha; simp [processPlant, hq]
      · exact processPlant_data_ne lk st a m q t ha

theorem foldPP_data_mem (lk : String → Option ForecastResult) (ns : List String)
    (st : DataFrame × Option Series) (p : String) (fr : ForecastResult)
    (hnd : ns.Nodup) (hp : p ∈ ns) (hf : lk p = some fr) (t : String) :
    (ns.foldl (processPlant lk) st).1.data ("watt", p) t = fr.ac_power.lookupLabel t ∧
    (ns.foldl (processPlant lk) st).1.data ("watt_hours", p) t = fr.ac_energy.lookupLabel t ∧
    (ns.foldl (processPlant lk) st).1.data ("watt_hours_cumsum", p) t =
      fr.ac_energy.cumsum.lookupLabel t := by
  induction ns generalizing st with
  | nil => cases hp
  | cons a tl ih =>
      rcases List.nodup_cons.mp hnd with ⟨hna, hntl⟩
      rcases List.mem_cons.mp hp with h1 | h1
      · subst h1
        rw [List.foldl_cons]
        have hnot : p ∉ tl := hna
        refine ⟨?_, ?_, ?_⟩ <;>
          rw [foldPP_data_not_mem lk tl _ _ _ _ hnot] <;>
          simp [processPlant, hf, setCol_data]
      · rw [List.foldl_cons]
        have hpa : p ≠ a := fun he => hna (he ▸ h1)
        have := ih (processPlant lk st a) hntl h1
        exact this

theorem foldPP_snd (lk : String → Option ForecastResult) (ns : List String)
    (st : DataFrame × Option Series) :
    (ns.foldl (processPlant lk) st).2 =
      ns.foldl (fun acc p => match lk p with
        | some fr => some fr.ac_power
        | none => acc) st.2 := by
  induction ns generalizing st with
  | nil => rfl
  | cons a tl ih =>
      rw [List.foldl_cons, List.foldl_cons, ih]
      cases h : lk a <;> simp [processPlant, h]

theorem foldPP_filter (lk : String → Option ForecastResult) (ns : List String)
    (st : DataFrame × Option Series) :
    ns.foldl (processPlant lk) st =
      (ns.filter fun q => (lk q).isSome).foldl (processPlant lk) st := by
  induction ns generalizing st with
  | nil => rfl
  | cons a tl ih =>
      rw [List.foldl_cons]
      cases h : lk a with
      | none =>
          have hst : processPlant lk st a = st := by simp [processPlant, h]
          rw [hst, ih, List.filter_cons_of_neg (by simp [h])]
      | some fr =>
          rw [ih, List.filter_cons_of_pos (by simp [h]), List.foldl_cons]

theorem foldPP_all_none (lk : String → Option ForecastResult) (ns : List String)
    (st : DataFrame × Option Series) (h : ∀ q ∈ ns, lk q = none) :
    ns.foldl (processPlant lk) st = st := by
  induction ns generalizing st with
  | nil => rfl
  | cons a tl ih =>
      rw [List.foldl_cons, show processPlant lk st a = st by
        simp [processPlant, h a (List.mem_cons_self a tl)]]
      exact ih st (fun q hq => h q (List.mem_cons_of_mem a hq))

/-! ### Index stability through the loop -/

theorem processPlant_index_labels (lk : String → Option ForecastResult)
    (st : DataFrame × Option Series) (a : String) (fr : ForecastResult) (ts : List String)
    (hf : lk a = some fr) (hp : fr.ac_power.map Prod.fst = ts)
    (he : fr.ac_energy.map Prod.fst = ts)
    (hst : st.1.index = [] ∨ st.1.index = ts) :
    (processPlant lk st a).1.index = ts := by
  simp only [processPlant, hf]
  have h1 : (st.1.setCol ("watt", a) fr.ac_power).index = ts := by
    rcases hst with h | h
    · rw [setCol_index, h, hp]; simp
    · exact setCol_index_stable _ _ _ ts h hp
  have h2 : ((st.1.setCol ("watt", a) fr.ac_power).setCol ("watt_hours", a)
      fr.ac_energy).index = ts :=
    setCol_index_stable _ _ _ ts h1 he
  exact setCol_index_stable _ _ _ ts h2 (by rw [cumsum_map_fst, he])

theorem foldPP_index_all_success (lk : String → Option ForecastResult) (ns : List String)
    (st : DataFrame × Option Series) (ts : List String) (hne : ns ≠ [])
    (hall : ∀ p ∈ ns, ∃ fr, lk p = some fr ∧ fr.ac_power.map Prod.fst = ts ∧
      fr.ac_energy.map Prod.fst = ts)
    (hst : st.1.index = [] ∨ st.1.index = ts) :
    (ns.foldl (processPlant lk) st).1.index = ts := by
  induction ns generalizing st with
  | nil => exact absurd rfl hne
  | cons a tl ih =>
      obtain ⟨fr, hf, hp, he⟩ := hall a (List.mem_cons_self a tl)
      have hstep := processPlant_index_labels lk st a fr ts hf hp he hst
      rw [List.foldl_cons]
      cases tl with
      | nil => simpa using hstep
      | cons b tl2 =>
          exact ih _ (by simp)
            (fun p hp2 => hall p (List.mem_cons_of_mem a hp2)) (Or.inr hstep)

/-! ### The metric sum and the total block -/

theorem map_fst_map_pair {α : Type} (l : List String) (g : String → α) :
    (l.map fun t => (t, g t)).map Prod.fst = l := by
  induction l with
  | nil => rfl
  | cons a tl ih => simp [ih]

theorem metricSum_map_fst (df : DataFrame) (m : String) :
    (df.metricSum m).map Prod.fst = df.index :=
  map_fst_map_pair df.index _

theorem metricSum_lookupLabel (df : DataFrame) (m t : String) (ht : t ∈ df.index) :
    (df.metricSum m).lookupLabel t =
      some (((df.cols.filter fun c => c.1 == m).map fun c => (df.data c t).getD 0).sum) :=
  lookupLabel_map_of_mem df.index _ t ht

theorem addTotals_cols (df : DataFrame) : (addTotals df).cols = df.cols := rfl

theorem addTotals_index (df : DataFrame) : (addTotals df).index = df.index := by
  have h1 : (df.setCol ("watt", "Total") (df.metricSum "watt")).index = df.index :=
    setCol_index_stable _ _ _ df.index rfl (metricSum_map_fst df "watt")
  have h2 := setCol_index_stable (df.setCol ("watt", "Total") (df.metricSum "watt"))
    ("watt_hours", "Total")
    ((df.setCol ("watt", "Total") (df.metricSum "watt")).metricSum "watt_hours")
    df.index h1 (by rw [metricSum_map_fst, h1])
  exact setCol_index_stable _ ("watt_hours_cumsum", "Total")
    (((df.setCol ("watt", "Total") (df.metricSum "watt")).setCol ("watt_hours", "Total")
      ((df.setCol ("watt", "Total") (df.metricSum "watt")).metricSum "watt_hours")).metricSum
        "watt_hours_cumsum")
    df.index h2 (by rw [metricSum_map_fst, h2])

theorem addTotals_data_plant (df : DataFrame) (m q t : String) (hq : q ≠ "Total") :
    (addTotals df).data (m, q) t = df.data (m, q) t := by
  simp [addTotals, setCol_data, Prod.mk.injEq, hq]

/-- The three columns a metric sum ranges over are exactly those the filter
keeps; writing another `Total` column first does not change the cells the
later metric sums read. -/
theorem addTotals_data_total (df : DataFrame) (m t : String)
    (hm : m = "watt" ∨ m = "watt_hours" ∨ m = "watt_hours_cumsum") (ht : t ∈ df.index) :
    (addTotals df).data (m, "Total") t =
      some (((df.cols.filter fun c => c.1 == m).map fun c => (df.data c t).getD 0).sum) := by
  have hidx1 : (df.setCol ("watt", "Total") (df.metricSum "watt")).index = df.index :=
    setCol_index_stable _ _ _ df.index rfl (metricSum_map_fst df "watt")
  have hidx2 : ((df.setCol ("watt", "Total") (df.metricSum "watt")).setCol
      ("watt_hours", "Total")
      ((df.setCol ("watt", "Total") (df.metricSum "watt")).metricSum "watt_hours")).index =
      df.index :=
    setCol_index_stable _ _ _ df.index hidx1 (by rw [metricSum_map_fst, hidx1])
  rcases hm with hm | hm | hm <;> subst hm
  · -- watt: written first, from the untouched frame
    simp only [addTotals]
    rw [setCol_data, if_neg (by decide), setCol_data, if_neg (by decide),
      setCol_data, if_pos rfl]
    exact metricSum_lookupLabel df _ t ht
  · -- watt_hours: written second; its metric sum reads the frame after the
    -- watt total was written, but no watt_hours cell was changed by that write
    simp only [addTotals]
    rw [setCol_data, if_neg (by decide), setCol_data, if_pos rfl,
      metricSum_lookupLabel _ _ t (hidx1 ▸ ht)]
    refine congrArg some (congrArg List.sum ?_)
    rw [setCol_cols]
    refine List.map_congr_left (fun c hc => ?_)
    have hcm : c.1 = "watt_hours" := by simpa using List.of_mem_filter hc
    have hne : c ≠ ("watt", "Total") := by
      intro hce; rw [hce] at hcm; exact absurd hcm (by decide)
    rw [setCol_data, if_neg hne]
  · -- watt_hours_cumsum: written third; no cumsum cell was touched before
    simp only [addTotals]
    rw [setCol_data, if_pos rfl, metricSum_lookupLabel _ _ t (hidx2 ▸ ht)]
    refine congrArg some (congrArg List.sum ?_)
    rw [setCol_cols, setCol_cols]
    refine List.map_congr_left (fun c hc => ?_)
    have hcm : c.1 = "watt_hours_cumsum" := by simpa using List.of_mem_filter hc
    have hne1 : c ≠ ("watt_hours", "Total") := by
      intro hce; rw [hce] at hcm; exact absurd hcm (by decide)
    have hne2 : c ≠ ("watt", "Total") := by
      intro hce; rw [hce] at hcm; exact absurd hcm (by decide)
    rw [setCol_data, if_neg hne1, setCol_data, if_neg hne2]

/-! ### Plumbing between the request pipeline and the loop lemmas -/

theorem loopState_cols (env : Env) (plantName : String) :
    (loopState env plantName).1.cols =
      mkCols (resolvedNames env plantName) (isAllArg plantName) := by
  rw [loopState, foldPP_cols]; rfl

theorem resultDf_cols (env : Env) (plantName : String) :
    (resultDf env plantName).cols =
      mkCols (resolvedNames env plantName) (isAllArg plantName) := by
  rw [resultDf, buildTable]
  split
  · rw [addTotals_cols, loopState_cols]
  · rw [loopState_cols]

theorem buildTable_snd (env : Env) (plantName : String) :
    (buildTable env plantName).2 = (loopState env plantName).2 := by
  rw [buildTable]; split <;> rfl

theorem loopState_snd (env : Env) (plantName : String) :
    (loopState env plantName).2 =
      lastSuccessfulPower env.lookup (resolvedNames env plantName) := by
  rw [loopState, foldPP_snd]; rfl

theorem resultDf_data_plant (env : Env) (plantName m q t : String) (hq : q ≠ "Total") :
    (resultDf env plantName).data (m, q) t = (loopState env plantName).1.data (m, q) t := by
  rw [resultDf, buildTable]
  split
  · exact addTotals_data_plant _ m q t hq
  · rfl

theorem resultDf_index (env : Env) (plantName : String) :
    (resultDf env plantName).index = (loopState env plantName).1.index := by
  rw [resultDf, buildTable]
  split
  · exact addTotals_index _
  · rfl

theorem hasNull_iff (df : DataFrame) :
    df.hasNull = true ↔ ∃ c ∈ df.cols, ∃ t ∈ df.index, df.data c t = none := by
  simp [DataFrame.hasNull, List.any_eq_true, Option.isNone_iff_eq_none]

/-- Inversion of a successful request: the NaN check passed, the `ac_power`
local was bound to a nonempty series, and the response fields are exactly
what the router builds. -/
theorem post_ok_elim (env : Env) (plantName interval : String) (r : ClearskyModel)
    (hok : post env plantName interval = Except.ok r) :
    (resultDf env plantName).hasNull = false ∧
    ∃ s hd lastPr, (buildTable env plantName).2 = some s ∧ s.head? = some hd ∧
      s.getLast? = some lastPr ∧
      r = { interval := interval, startTs := hd.1, endTs := lastPr.1,
            timezone := env.timezone, result := toNested (resultDf env plantName) } := by
  simp only [post] at hok
  split at hok
  · exact absurd hok (by simp)
  · rename_i hnull
    split at hok
    · exact absurd hok (by simp)
    · rename_i s hs
      split at hok
      · rename_i hd lastPr hhd hlast
        refine ⟨Bool.not_eq_true _ ▸ (by simpa using hnull), s, hd, lastPr, hs, hhd, hlast, ?_⟩
        exact (Except.ok.injEq _ _ ▸ hok.symm)
      · exact absurd hok (by simp)

theorem post_eq_nanError_iff (env : Env) (plantName interval : String) :
    post env plantName interval = Except.error PostError.nanError ↔
      (resultDf env plantName).hasNull = true := by
  constructor
  · intro h
    by_contra hn
    simp only [post] at h
    rw [if_neg (by simpa using hn)] at h
    split at h
    · exact absurd h (by simp)
    · split at h
      · exact absurd h (by simp)
      · simp at h
  · intro h
    simp only [post]
    rw [if_pos (by simpa using h)]

/-! ### The column schema under filtering and metric deduplication -/

theorem filter_map_pair (names : List String) (m0 m : String) :
    (names.map fun p => (m0, p)).filter (fun c => c.1 == m) =
      if m0 = m then names.map (fun p => (m0, p)) else [] := by
  induction names with
  | nil => simp
  | cons a tl ih =>
      by_cases h : m0 = m <;> simp [List.filter_cons, beq_iff_eq, h, ih]

theorem mkCols_filter (names : List String) (allArg : Bool) (m : String)
    (hm : m = "watt" ∨ m = "watt_hours" ∨ m = "watt_hours_cumsum") :
    (mkCols names allArg).filter (fun c => c.1 == m) =
      names.map (fun p => (m, p)) ++ (if allArg then [(m, "Total")] else []) := by
  rcases hm with hm | hm | hm <;> subst hm <;> cases allArg <;>
    simp [mkCols, List.filter_append, filter_map_pair]

theorem dedupFirstGo_append (l1 l2 seen : List String) :
    dedupFirstGo (l1 ++ l2) seen =
      dedupFirstGo l1 seen ++ dedupFirstGo l2 ((dedupFirstGo l1 seen).reverse ++ seen) := by
  induction l1 generalizing seen with
  | nil => simp [dedupFirstGo]
  | cons a tl ih =>
      by_cases h : a ∈ seen
      · simp only [List.cons_append, dedupFirstGo, if_pos h]
        exact ih seen
      · simp only [List.cons_append, dedupFirstGo, if_neg h, List.append_eq]
        rw [ih (a :: seen), List.reverse_cons, List.append_assoc]
        simp

theorem dedupFirstGo_replicate (k : ℕ) (m : String) (seen : List String) :
    dedupFirstGo (List.replicate k m) seen =
      if k ≠ 0 ∧ m ∉ seen then [m] else [] := by
  induction k generalizing seen with
  | zero => simp [dedupFirstGo]
  | succ k ih =>
      simp only [List.replicate_succ, dedupFirstGo]
      by_cases h : m ∈ seen
      · simp [h, ih]
      · simp [h, ih]

set_option maxRecDepth 4000 in
theorem dedup_mkCols (names : List String) (hne : names ≠ []) (allArg : Bool) :
    dedupFirst ((mkCols names allArg).map Prod.fst) =
      ["watt", "watt_hours", "watt_hours_cumsum"] := by
  cases names with
  | nil => exact absurd rfl hne
  | cons n rest =>
      cases allArg <;>
        simp [mkCols, dedupFirst, List.map_append, List.map_map, Function.comp,
          List.append_assoc, dedupFirstGo_append, dedupFirstGo_replicate, dedupFirstGo]

/-! ### Sums over lists -/

theorem list_sum_map_zero {α : Type} (l : List α) : (l.map fun _ => (0 : ℚ)).sum = 0 := by
  induction l <;> simp_all

theorem list_sum_map_add {α : Type} (l : List α) (f g : α → ℚ) :
    (l.map fun a => f a + g a).sum = (l.map f).sum + (l.map g).sum := by
  induction l with
  | nil => simp
  | cons a tl ih => simp only [List.map_cons, List.sum_cons, ih]; ring

theorem sum_map_sum_swap {α β : Type} (l1 : List α) (l2 : List β) (f : α → β → ℚ) :
    (l1.map fun a => (l2.map (f a)).sum).sum =
      (l2.map fun b => (l1.map fun a => f a b).sum).sum := by
  induction l1 with
  | nil => simp [list_sum_map_zero]
  | cons a tl ih =>
      simp only [List.map_cons, List.sum_cons, ih]
      rw [← list_sum_map_add]

/-! ### The shared total-cell computation -/

theorem loopState_data_total_none (env : Env) (plantName m t : String)
    (hall : isAllArg plantName = true) (hT : "Total" ∉ env.registryKeys) :
    (loopState env plantName).1.data (m, "Total") t = none := by
  rw [loopState, foldPP_data_not_mem]
  · rfl
  · rw [resolvedNames, if_pos hall]
    exact hT

/-- In all mode, every `Total` cell of the assembled frame is the sum of the
plant cells of its metric as the loop left them: the total of a metric is
computed before its own `Total` column is written, and the schema puts
exactly the plant columns and one `Total` column under each metric. -/
theorem total_cell (env : Env) (plantName m t : String)
    (hall : isAllArg plantName = true) (hT : "Total" ∉ env.registryKeys)
    (hm : m = "watt" ∨ m = "watt_hours" ∨ m = "watt_hours_cumsum")
    (ht : t ∈ (loopState env plantName).1.index) :
    (resultDf env plantName).data (m, "Total") t =
      some ((env.registryKeys.map fun p =>
        (((loopState env plantName).1.data (m, p) t).getD 0)).sum) := by
  have hnames : resolvedNames env plantName = env.registryKeys := by
    rw [resolvedNames, if_pos hall]
  have hrdf : resultDf env plantName = addTotals (loopState env plantName).1 := by
    rw [resultDf, buildTable, if_pos hall]
  rw [hrdf, addTotals_data_total _ m t hm ht]
  refine congrArg some ?_
  rw [loopState_cols, hnames, hall, mkCols_filter env.registryKeys true m hm,
    if_pos rfl, List.map_append, List.sum_append, List.map_map]
  have htot : ((loopState env plantName).1.data (m, "Total") t).getD 0 = 0 := by
    rw [loopState_data_total_none env plantName m t hall hT]; rfl
  rw [show ((fun c : String × String => ((loopState env plantName).1.data c t).getD 0) ∘
      fun p : String => (m, p)) =
      fun p : String => (((loopState env plantName).1.data (m, p) t).getD 0) from
    funext fun p => rfl]
  simp [htot]

theorem lookupLabel_get_of_labels (s : Series) (L : List String)
    (hL : s.map Prod.fst = L) (hnd : L.Nodup) (k : ℕ) (hk : k < L.length)
    (hk2 : k < s.length) :
    s.lookupLabel (L.get ⟨k, hk⟩) = some ((s.get ⟨k, hk2⟩).2) := by
  subst hL
  exact lookupLabel_get_of_nodup s hnd k hk2

theorem loopState_index_all_success (env : Env) (plantName : String) (ts : List String)
    (hne : resolvedNames env plantName ≠ [])
    (hls : ∀ p ∈ resolvedNames env plantName, ∃ fr, env.lookup p = some fr ∧
      fr.ac_power.map Prod.fst = ts ∧ fr.ac_energy.map Prod.fst = ts) :
    (loopState env plantName).1.index = ts := by
  rw [loopState]
  exact foldPP_index_all_success _ _ _ ts hne hls (Or.inl rfl)

/-- The energy and cumulative-energy cells a successfully processed plant
leaves in the assembled frame, read at the k-th label of its series. -/
theorem wh_whc_cell_values (env : Env) (plantName p : String) (fr : ForecastResult)
    (L : List String) (hnd : (resolvedNames env plantName).Nodup)
    (hp : p ∈ resolvedNames env plantName) (hpT : p ≠ "Total")
    (hf : env.lookup p = some fr) (hL : fr.ac_energy.map Prod.fst = L)
    (htn : L.Nodup) (k : ℕ) (hk : k < L.length) :
    (resultDf env plantName).data ("watt_hours", p) (L.get ⟨k, hk⟩) =
      some ((fr.ac_energy.map Prod.snd).get ⟨k, by
        rw [← hL, List.length_map] at hk; simpa using hk⟩) ∧
    (resultDf env plantName).data ("watt_hours_cumsum", p) (L.get ⟨k, hk⟩) =
      some (((fr.ac_energy.map Prod.snd).take (k + 1)).sum) := by
  have hkE : k < fr.ac_energy.length := by
    rw [← hL, List.length_map] at hk; exact hk
  have hkC : k < fr.ac_energy.cumsum.length := by
    rw [Series.cumsum, cumsumFrom_length]; exact hkE
  have hd := foldPP_data_mem env.lookup (resolvedNames env plantName)
    (initTable (resolvedNames env plantName) (isAllArg plantName), none) p fr hnd hp hf
  constructor
  · rw [resultDf_data_plant env plantName _ p _ hpT, loopState, (hd _).2.1,
      lookupLabel_get_of_labels fr.ac_energy L hL htn k hk hkE]
    refine congrArg some ?_
    simp [List.get_eq_getElem]
  · rw [resultDf_data_plant env plantName _ p _ hpT, loopState, (hd _).2.2,
      lookupLabel_get_of_labels fr.ac_energy.cumsum L (by rw [cumsum_map_fst, hL]) htn k hk hkC]
    refine congrArg some ?_
    have hcg := cumsum_get fr.ac_energy k hkE
    rw [show fr.ac_energy.cumsum.get ⟨k, hkC⟩ =
      fr.ac_energy.cumsum.get ⟨k, by rw [Series.cumsum, cumsumFrom_length]; exact hkE⟩
      from rfl, hcg]

/-! ### Concrete environments used by the witnesses and counterexamples -/

/-- A two-timestamp forecast with integer values, plant A. -/
def frA : ForecastResult :=
  { ac_power := [("t0", 100), ("t1", 200)], ac_energy := [("t0", 10), ("t1", 20)] }

/-- A two-timestamp forecast with integer values, plant B. -/
def frB : ForecastResult :=
  { ac_power := [("t0", 50), ("t1", 150)], ac_energy := [("t0", 5), ("t1", 15)] }

/-- Two plants, both resolving, aligned series. -/
def env2 : Env :=
  { registryKeys := ["A", "B"]
    lookup := fun n => if n = "A" then some frA else if n = "B" then some frB else none
    timezone := "UTC" }

/-- A registry whose lookup fails for every name. -/
def envNone : Env :=
  { registryKeys := ["A", "B"], lookup := fun _ => none, timezone := "UTC" }

/-- One plant whose energy values are fractional, to exercise rounding. -/
def frFrac : ForecastResult :=
  { ac_power := [("t0", 1), ("t1", 1)], ac_energy := [("t0", 2/5), ("t1", 2/5)] }

/-- Single-plant registry with the fractional forecast. -/
def envFrac : Env :=
  { registryKeys := ["A"]
    lookup := fun n => if n = "A" then some frFrac else none
    timezone := "UTC" }

/-- Two plants where the lookup of the second fails. -/
def envSkip : Env :=
  { registryKeys := ["A", "BAD"]
    lookup := fun n => if n = "A" then some frA else none
    timezone := "UTC" }

/-! ### Claims -/

/-- C1: In all mode, for every metric among watt, watt_hours and
watt_hours_cumsum and every timestamp of the assembled table, the Total
cell equals the sum of that metric over exactly the resolved plant set,
computed after all plants have been processed and never including a
previously computed Total column. -/
theorem total_column_is_sum_over_plants (env : Env) (plantName : String)
    (hall : isAllArg plantName = true) (hT : "Total" ∉ env.registryKeys)
    (m : String) (hm : m = "watt" ∨ m = "watt_hours" ∨ m = "watt_hours_cumsum")
    (t : String) (ht : t ∈ (resultDf env plantName).index)
    (v : String → ℚ)
    (hv : ∀ p ∈ env.registryKeys, (resultDf env plantName).data (m, p) t = some (v p)) :
    (resultDf env plantName).data (m, "Total") t =
      some ((env.registryKeys.map v).sum) := by
  have ht2 : t ∈ (loopState env plantName).1.index := by
    rw [← resultDf_index]; exact ht
  rw [total_cell env plantName m t hall hT hm ht2]
  refine congrArg some (congrArg List.sum ?_)
  refine List.map_congr_left fun p hp => ?_
  have hne : p ≠ "Total" := fun he => hT (he ▸ hp)
  have hvp := hv p hp
  rw [resultDf_data_plant env plantName m p t hne] at hvp
  rw [hvp]
  rfl

/-- Witness for C1 at a concrete two-plant registry: the watt Total at t0 is
the sum of the two plant watt cells. -/
theorem total_column_is_sum_over_plants_witness :
    (resultDf env2 "all").data ("watt", "Total") "t0" = some 150 := by
  have h := total_column_is_sum_over_plants env2 "all" (by decide) (by decide)
    "watt" (Or.inl rfl) "t0" (by with_unfolding_all decide)
    (fun p => if p = "A" then (100 : ℚ) else 50) (by with_unfolding_all decide)
  rw [h]
  with_unfolding_all rfl

/-- C2: For every successfully processed plant and every position k of the
ordered timestamp sequence, the watt_hours_cumsum cell at position k equals
the watt_hours_cumsum cell at position k-1 (0 before the first position)
plus the watt_hours cell at position k: the cumsum column is the running
sum of the plant watt_hours column over the ordered index. -/
theorem cumsum_column_is_running_sum (env : Env) (plantName p : String)
    (fr : ForecastResult) (ts : List String)
    (hnd : (resolvedNames env plantName).Nodup)
    (hp : p ∈ resolvedNames env plantName)
    (hpT : p ≠ "Total")
    (hf : env.lookup p = some fr)
    (hts : fr.ac_energy.map Prod.fst = ts)
    (htn : ts.Nodup)
    (k : ℕ) (hk : k < ts.length) :
    ∃ e : ℚ,
      (resultDf env plantName).data ("watt_hours", p) (ts.get ⟨k, hk⟩) = some e ∧
      (resultDf env plantName).data ("watt_hours_cumsum", p) (ts.get ⟨k, hk⟩) =
        some ((if k = 0 then 0 else
          ((resultDf env plantName).data ("watt_hours_cumsum", p)
            (ts.get ⟨k - 1, Nat.lt_of_le_of_lt (Nat.sub_le k 1) hk⟩)).getD 0) + e) := by
  have hwh := (wh_whc_cell_values env plantName p fr ts hnd hp hpT hf hts htn k hk).1
  have hwhc := (wh_whc_cell_values env plantName p fr ts hnd hp hpT hf hts htn k hk).2
  refine ⟨_, hwh, ?_⟩
  rw [hwhc]
  refine congrArg some ?_
  have hkE : k < fr.ac_energy.length := by rw [← hts, List.length_map] at hk; exact hk
  have hkS : k < (fr.ac_energy.map Prod.snd).length := by simpa using hkE
  rw [List.sum_take_succ _ k hkS]
  cases k with
  | zero => simp
  | succ j =>
      have hkj : j < ts.length := lt_trans (Nat.lt_succ_self j) hk
      have hprev := (wh_whc_cell_values env plantName p fr ts hnd hp hpT hf hts htn j hkj).2
      rw [if_neg (Nat.succ_ne_zero j)]
      rw [show ts.get ⟨j + 1 - 1, Nat.lt_of_le_of_lt (Nat.sub_le (j + 1) 1) hk⟩ =
        ts.get ⟨j, hkj⟩ from rfl]
      rw [hprev]
      rfl

/-- Witness for C2 at position 1 of the two-timestamp plant A. -/
theorem cumsum_column_is_running_sum_witness :
    ∃ e : ℚ,
      (resultDf env2 "all").data ("watt_hours", "A") (["t0", "t1"].get ⟨1, by decide⟩) =
        some e ∧
      (resultDf env2 "all").data ("watt_hours_cumsum", "A") (["t0", "t1"].get ⟨1, by decide⟩) =
        some ((if 1 = 0 then 0 else
          ((resultDf env2 "all").data ("watt_hours_cumsum", "A")
            (["t0", "t1"].get ⟨1 - 1, Nat.lt_of_le_of_lt (Nat.sub_le 1 1) (by decide)⟩)).getD 0)
          + e) :=
  cumsum_column_is_running_sum env2 "all" "A" frA ["t0", "t1"]
    (by with_unfolding_all decide) (by with_unfolding_all decide) (by decide)
    (by with_unfolding_all rfl) rfl (by decide) 1 (by decide)

instance {ε α : Type} [DecidableEq ε] [DecidableEq α] : DecidableEq (Except ε α) :=
  fun a b =>
    match a, b with
    | .error e, .error f =>
        if h : e = f then .isTrue (by rw [h]) else .isFalse (by simp [h])
    | .ok x, .ok y =>
        if h : x = y then .isTrue (by rw [h]) else .isFalse (by simp [h])
    | .error _, .ok _ => .isFalse (by simp)
    | .ok _, .error _ => .isFalse (by simp)

theorem hasNull_nil_index (df : DataFrame) (h : df.index = []) :
    df.hasNull = false := by
  simp [DataFrame.hasNull, h]

theorem lastSuccessfulPower_nil (lk : String → Option ForecastResult) :
    lastSuccessfulPower lk [] = none := rfl

/-- C3: The completeness check fails with the incomplete-result error (the
ValueError raised on NaN cells) exactly when some cell of some column of
the assembled table is missing; the error is a hard stop producing no
response, and missing values are never patched with a default: every cell
behind a returned response is defined. -/
theorem validator_rejects_iff_missing_cell (env : Env) (plantName interval : String) :
    (post env plantName interval = Except.error PostError.nanError ↔
      ∃ c ∈ (resultDf env plantName).cols, ∃ t ∈ (resultDf env plantName).index,
        (resultDf env plantName).data c t = none) ∧
    ∀ r : ClearskyModel, post env plantName interval = Except.ok r →
      ∀ c ∈ (resultDf env plantName).cols, ∀ t ∈ (resultDf env plantName).index,
        (resultDf env plantName).data c t ≠ none := by
  constructor
  · rw [post_eq_nanError_iff, hasNull_iff]
  · intro r hok c hc t ht hnone
    have h2 : (resultDf env plantName).hasNull = true :=
      (hasNull_iff _).mpr ⟨c, hc, t, ht, hnone⟩
    have hfalse := (post_ok_elim env plantName interval r hok).1
    rw [hfalse] at h2
    exact Bool.false_ne_true h2

/-- C4 counterexample: a request for the single plant PlantX, absent from
the registry, fails with the unbound-local error of the response block and
not with a not-found error. -/
theorem single_unknown_plant_not_found_refuted :
    post envNone "PlantX" "1h" = Except.error PostError.unboundLocal ∧
    post envNone "PlantX" "1h" ≠ Except.error PostError.notFound := by
  with_unfolding_all decide

/-- C4 (amended): for a single-plant request whose name is absent from the
registry, the pipeline fails with a request-level error — the
unbound-local error of the response block, surfaced as a server error, not
a not-found error — and no response body (hence none with a result field)
is produced. -/
theorem single_unknown_plant_unbound_error (env : Env) (plantName interval : String)
    (hsingle : isAllArg plantName = false) (habs : env.lookup plantName = none) :
    post env plantName interval = Except.error PostError.unboundLocal ∧
    ∀ r : ClearskyModel, post env plantName interval ≠ Except.ok r := by
  have hnames : resolvedNames env plantName = [plantName] := by
    rw [resolvedNames, if_neg (by simp [hsingle])]
  have hloop : loopState env plantName =
      (initTable (resolvedNames env plantName) (isAllArg plantName), none) := by
    rw [loopState]
    rw [hnames, List.foldl_cons, List.foldl_nil]
    simp [processPlant, habs]
  have hbt : buildTable env plantName = loopState env plantName := by
    rw [buildTable, if_neg (by simp [hsingle])]
  have hnull : (buildTable env plantName).1.hasNull = false := by
    rw [hbt, hloop]
    exact hasNull_nil_index _ rfl
  have hmain : post env plantName interval = Except.error PostError.unboundLocal := by
    simp only [post]
    rw [if_neg (by simp [hnull])]
    rw [show (buildTable env plantName).2 = none from by rw [hbt, hloop]]
  exact ⟨hmain, fun r hok => by rw [hmain] at hok; exact Except.noConfusion hok⟩

/-- Witness for the amended C4 at a concrete registry. -/
theorem single_unknown_plant_unbound_error_witness :
    post envNone "PlantY" "1h" = Except.error PostError.unboundLocal ∧
    ∀ r : ClearskyModel, post envNone "PlantY" "1h" ≠ Except.ok r :=
  single_unknown_plant_unbound_error envNone "PlantY" "1h" (by decide) rfl

/-- C5 counterexample: when every plant fails lookup, the request does fail,
but through the unbound-local error of the response block; the completeness
validator does not fire because the table has an empty row index with no
cells at all. -/
theorem all_plants_failing_validator_refuted :
    post envNone "all" "1h" = Except.error PostError.unboundLocal ∧
    post envNone "all" "1h" ≠ Except.error PostError.nanError ∧
    (resultDf envNone "all").hasNull = false := by
  with_unfolding_all decide

/-- C5 (amended): if every requested plant fails lookup, the table keeps all
requested columns with no cell written and an empty row index; the
completeness check passes vacuously over zero cells, and the request
instead fails with the unbound-local error of the response block, so it is
still not answered. -/
theorem all_plants_failing_unbound_error (env : Env) (plantName interval : String)
    (hall : isAllArg plantName = true) (habs : ∀ q, env.lookup q = none) :
    (resultDf env plantName).cols = mkCols env.registryKeys true ∧
    (resultDf env plantName).index = [] ∧
    (∀ c t, (resultDf env plantName).data c t = none) ∧
    (resultDf env plantName).hasNull = false ∧
    post env plantName interval = Except.error PostError.unboundLocal := by
  have hnames : resolvedNames env plantName = env.registryKeys := by
    rw [resolvedNames, if_pos hall]
  have hloop : loopState env plantName = (initTable env.registryKeys true, none) := by
    rw [loopState, foldPP_all_none _ _ _ (fun q _ => habs q), hnames, hall]
  have hrdf : resultDf env plantName = addTotals (initTable env.registryKeys true) := by
    rw [resultDf, buildTable, if_pos hall, hloop]
  have hidx : (addTotals (initTable env.registryKeys true)).index = [] :=
    addTotals_index _
  have hdata : ∀ c t, (addTotals (initTable env.registryKeys true)).data c t = none := by
    intro c t
    have hms : ∀ m, (initTable env.registryKeys true).metricSum m = [] := fun m => rfl
    simp only [addTotals, setCol_data, DataFrame.setCol, DataFrame.metricSum, initTable]
    split
    · rfl
    · split
      · rfl
      · split
        · rfl
        · rfl
  have hbt1 : (buildTable env plantName).1 = resultDf env plantName := rfl
  have hnull : (buildTable env plantName).1.hasNull = false := by
    rw [hbt1, hrdf]
    exact hasNull_nil_index _ hidx
  refine ⟨?_, ?_, ?_, ?_, ?_⟩
  · rw [hrdf, addTotals_cols]; rfl
  · rw [hrdf, hidx]
  · rw [hrdf]; exact hdata
  · rw [hrdf]; exact hasNull_nil_index _ hidx
  · simp only [post]
    rw [if_neg (by simp [hnull])]
    rw [show (buildTable env plantName).2 = none from by rw [buildTable_snd, hloop]]

/-- Witness for the amended C5 at a concrete registry. -/
theorem all_plants_failing_unbound_error_witness :
    (resultDf envNone "all").cols = mkCols envNone.registryKeys true ∧
    (resultDf envNone "all").index = [] ∧
    (∀ c t, (resultDf envNone "all").data c t = none) ∧
    (resultDf envNone "all").hasNull = false ∧
    post envNone "all" "1h" = Except.error PostError.unboundLocal :=
  all_plants_failing_unbound_error envNone "all" "1h" (by decide) (fun q => rfl)

/-- C6: a plant whose registry lookup fails is skipped: the whole batch
computes exactly as over the plants whose lookup succeeds, and the columns
of the failed plant stay unwritten in the assembled table; the other
plants still process. -/
theorem failed_plant_lookup_skipped (env : Env) (plantName p : String)
    (hpT : p ≠ "Total") (habs : env.lookup p = none) :
    loopState env plantName =
      ((resolvedNames env plantName).filter fun q => (env.lookup q).isSome).foldl
        (processPlant env.lookup)
        (initTable (resolvedNames env plantName) (isAllArg plantName), none) ∧
    ∀ m t, (resultDf env plantName).data (m, p) t = none := by
  constructor
  · rw [loopState]
    exact foldPP_filter _ _ _
  · intro m t
    rw [resultDf_data_plant env plantName m p t hpT, loopState,
      foldPP_data_none _ _ _ _ _ _ habs]
    rfl

/-- Witness for C6: the plant BAD fails lookup and is skipped while A is
still processed. -/
theorem failed_plant_lookup_skipped_witness :
    loopState envSkip "all" =
      ((resolvedNames envSkip "all").filter fun q => (envSkip.lookup q).isSome).foldl
        (processPlant envSkip.lookup)
        (initTable (resolvedNames envSkip "all") (isAllArg "all"), none) ∧
    ∀ m t, (resultDf envSkip "all").data (m, "BAD") t = none :=
  failed_plant_lookup_skipped envSkip "all" "BAD" (by decide) (by with_unfolding_all rfl)

/-- C7: with no explicit start and end in the request body, the window
passed to the date-source provider is the current time and the current
time plus the requested interval. -/
theorem default_window_now_plus_interval (now interval : ℤ) :
    sourceWindow now interval none = (now, now + interval) := rfl

theorem map_snd_map_pair (l : List String) (m : String) :
    (l.map fun p => (m, p)).map Prod.snd = l := by
  induction l with
  | nil => rfl
  | cons a tl ih => simp [ih]

/-- C8: the column set and order of the table are the schema fixed before
any plant is processed — metric groups watt, watt_hours,
watt_hours_cumsum, each listing the requested plants in request order,
with the Total columns appended last in all mode — and the nested
serialization iterates metrics and plants in exactly that order. -/
theorem column_order_fixed_and_preserved (env : Env) (plantName interval : String)
    (r : ClearskyModel) (hok : post env plantName interval = Except.ok r) :
    (resultDf env plantName).cols =
      mkCols (resolvedNames env plantName) (isAllArg plantName) ∧
    r.result.map Prod.fst = ["watt", "watt_hours", "watt_hours_cumsum"] ∧
    ∀ pr ∈ r.result, pr.2.map Prod.fst =
      resolvedNames env plantName ++
        (if isAllArg plantName then ["Total"] else []) := by
  obtain ⟨hnull, s, hd, lastPr, hs, hhd, hlast, hr⟩ :=
    post_ok_elim env plantName interval r hok
  have hne : resolvedNames env plantName ≠ [] := by
    intro h0
    rw [buildTable_snd, loopState_snd, h0, lastSuccessfulPower_nil] at hs
    exact Option.noConfusion hs
  subst hr
  refine ⟨resultDf_cols env plantName, ?_, ?_⟩
  · show (toNested (resultDf env plantName)).map Prod.fst = _
    rw [toNested, map_fst_map_pair, resultDf_cols, dedup_mkCols _ hne]
  · intro pr hpr
    rw [show ClearskyModel.result
        { interval := interval, startTs := hd.1, endTs := lastPr.1,
          timezone := env.timezone, result := toNested (resultDf env plantName) } =
        toNested (resultDf env plantName) from rfl, toNested] at hpr
    obtain ⟨m, hm, rfl⟩ := List.mem_map.mp hpr
    have hm3 : m ∈ ["watt", "watt_hours", "watt_hours_cumsum"] := by
      rw [resultDf_cols, dedup_mkCols _ hne] at hm
      exact hm
    have hmor : m = "watt" ∨ m = "watt_hours" ∨ m = "watt_hours_cumsum" := by
      simpa using hm3
    show ((((resultDf env plantName).cols.filter fun c => c.1 == m).map fun c =>
      (c.2, (resultDf env plantName).index.map fun t =>
        (t, roundHalfEven (((resultDf env plantName).data c t).getD 0)))).map Prod.fst) = _
    rw [List.map_map]
    rw [show ((Prod.fst ∘ fun c : String × String =>
        ((c.2 : String), (resultDf env plantName).index.map fun t =>
          (t, roundHalfEven (((resultDf env plantName).data c t).getD 0))))) =
        (Prod.snd : String × String → String) from funext fun c => rfl]
    rw [resultDf_cols, mkCols_filter _ _ m hmor, List.map_append, map_snd_map_pair]
    cases h : isAllArg plantName <;> simp

/-- Witness for C8: the metric iteration order of a successful all-mode
response at a concrete registry. -/
theorem column_order_fixed_and_preserved_witness :
    ((post env2 "all" "1h").toOption.map fun r => r.result.map Prod.fst) =
      some ["watt", "watt_hours", "watt_hours_cumsum"] := by
  cases hok : post env2 "all" "1h" with
  | error e =>
      have hv : (post env2 "all" "1h").toOption.isSome = true := by
        with_unfolding_all rfl
      rw [hok] at hv
      exact absurd hv (by simp [Except.toOption])
  | ok r =>
      simp only [Except.toOption, Option.map]
      rw [(column_order_fixed_and_preserved env2 "all" "1h" r hok).2.1]

/-- C9: the start and end fields of every successful response are the first
and last timestamp labels of the power series of the last successfully
processed plant. -/
theorem response_window_from_last_successful_plant (env : Env)
    (plantName interval : String) (r : ClearskyModel)
    (hok : post env plantName interval = Except.ok r) :
    ∃ s hd lastPr,
      lastSuccessfulPower env.lookup (resolvedNames env plantName) = some s ∧
      s.head? = some hd ∧ s.getLast? = some lastPr ∧
      r.startTs = hd.1 ∧ r.endTs = lastPr.1 := by
  obtain ⟨hnull, s, hd, lastPr, hs, hhd, hlast, hr⟩ :=
    post_ok_elim env plantName interval r hok
  subst hr
  refine ⟨s, hd, lastPr, ?_, hhd, hlast, rfl, rfl⟩
  rw [← loopState_snd, ← buildTable_snd]
  exact hs

/-- Witness for C9: a successful single-plant request for B carries the
bounds of the B power series. -/
theorem response_window_from_last_successful_plant_witness :
    ((post env2 "B" "1h").toOption.map fun r => (r.startTs, r.endTs)) =
      some ("t0", "t1") := by
  cases hok : post env2 "B" "1h" with
  | error e =>
      have hv : (post env2 "B" "1h").toOption.isSome = true := by
        with_unfolding_all rfl
      rw [hok] at hv
      exact absurd hv (by simp [Except.toOption])
  | ok r =>
      obtain ⟨s, hd, lastPr, hs, hhd, hlast, h1, h2⟩ :=
        response_window_from_last_successful_plant env2 "B" "1h" r hok
      rw [show lastSuccessfulPower env2.lookup (resolvedNames env2 "B") =
        some [("t0", (50 : ℚ)), ("t1", 150)] from by with_unfolding_all rfl] at hs
      have hse : s = [("t0", (50 : ℚ)), ("t1", 150)] := (Option.some.inj hs).symm
      subst hse
      have hhd2 : hd = ("t0", (50 : ℚ)) := by simpa using hhd.symm
      have hlast2 : lastPr = ("t1", (150 : ℚ)) := by simpa using hlast.symm
      simp [Except.toOption, h1, h2, hhd2, hlast2]

/-- C10 (amended): before quantization, the Total column of
watt_hours_cumsum is the running sum of the Total column of watt_hours:
at every index position k the cumsum Total cell equals the sum of the
watt_hours Total cells at positions up to k, because summing per-plant
running sums across plants equals the running sum of the per-timestamp
plant sums.  After the cellwise integer rounding of the response this can
fail (see the counterexample). -/
theorem total_cumsum_is_running_sum_prequantization (env : Env) (plantName : String)
    (ts : List String)
    (hall : isAllArg plantName = true) (hT : "Total" ∉ env.registryKeys)
    (hnd : env.registryKeys.Nodup) (hne : env.registryKeys ≠ [])
    (htn : ts.Nodup)
    (hls : ∀ p ∈ env.registryKeys, ∃ fr, env.lookup p = some fr ∧
      fr.ac_power.map Prod.fst = ts ∧ fr.ac_energy.map Prod.fst = ts)
    (k : ℕ) (hk : k < ts.length) :
    (resultDf env plantName).data ("watt_hours_cumsum", "Total") (ts.get ⟨k, hk⟩) =
      some (((ts.take (k + 1)).map fun t =>
        ((resultDf env plantName).data ("watt_hours", "Total") t).getD 0).sum) ∧
    ((resultDf env plantName).data ("watt_hours", "Total") (ts.get ⟨k, hk⟩)).isSome := by
  have hnames : resolvedNames env plantName = env.registryKeys := by
    rw [resolvedNames, if_pos hall]
  have hnd2 : (resolvedNames env plantName).Nodup := by rw [hnames]; exact hnd
  have hidx : (loopState env plantName).1.index = ts :=
    loopState_index_all_success env plantName ts (by rw [hnames]; exact hne)
      (by rw [hnames]; exact hls)
  have htm : ∀ t ∈ ts, t ∈ (loopState env plantName).1.index := fun t h => by
    rw [hidx]; exact h
  have hwhT : ∀ t ∈ ts, (resultDf env plantName).data ("watt_hours", "Total") t =
      some ((env.registryKeys.map fun p =>
        (((loopState env plantName).1.data ("watt_hours", p) t).getD 0)).sum) :=
    fun t h =>
      total_cell env plantName "watt_hours" t hall hT (Or.inr (Or.inl rfl)) (htm t h)
  constructor
  · rw [total_cell env plantName "watt_hours_cumsum" _ hall hT (Or.inr (Or.inr rfl))
      (htm _ (List.get_mem ts k hk))]
    refine congrArg some ?_
    have hR : ((ts.take (k + 1)).map fun t =>
        ((resultDf env plantName).data ("watt_hours", "Total") t).getD 0) =
        (ts.take (k + 1)).map fun t =>
          ((env.registryKeys.map fun p =>
            (((loopState env plantName).1.data ("watt_hours", p) t).getD 0)).sum) := by
      refine List.map_congr_left fun t htk => ?_
      rw [hwhT t (List.mem_of_mem_take htk)]
      rfl
    rw [hR, ← sum_map_sum_swap env.registryKeys (ts.take (k + 1))
      (fun p t => ((loopState env plantName).1.data ("watt_hours", p) t).getD 0)]
    refine congrArg List.sum (List.map_congr_left fun p hp => ?_)
    obtain ⟨fr, hf, hpw, hpe⟩ := hls p hp
    have hpT2 : p ≠ "Total" := fun he => hT (he ▸ hp)
    have hp2 : p ∈ resolvedNames env plantName := by rw [hnames]; exact hp
    have hwhc := (wh_whc_cell_values env plantName p fr ts hnd2 hp2 hpT2 hf hpe htn k hk).2
    rw [resultDf_data_plant env plantName _ p _ hpT2] at hwhc
    rw [hwhc]
    have hd := foldPP_data_mem env.lookup (resolvedNames env plantName)
      (initTable (resolvedNames env plantName) (isAllArg plantName), none) p fr hnd2 hp2 hf
    have hmapwh : ∀ t, (loopState env plantName).1.data ("watt_hours", p) t =
        fr.ac_energy.lookupLabel t := fun t => by
      rw [loopState]; exact (hd t).2.1
    have hmaps : (ts.take (k + 1)).map (fun t => (fr.ac_energy.lookupLabel t).getD 0) =
        (fr.ac_energy.map Prod.snd).take (k + 1) := by
      rw [← hpe, List.map_take, map_lookupLabel_of_nodup fr.ac_energy
        (by rw [hpe]; exact htn)]
    rw [show (fun t => (((loopState env plantName).1.data ("watt_hours", p) t).getD 0)) =
      (fun t => ((fr.ac_energy.lookupLabel t).getD 0)) from
        funext fun t => by rw [hmapwh t], hmaps]
    rfl
  · rw [hwhT _ (List.get_mem ts k hk)]
    rfl

/-- Witness for the amended C10 at a concrete two-plant registry and
position 1. -/
theorem total_cumsum_prequantization_witness :
    (resultDf env2 "all").data ("watt_hours_cumsum", "Total")
        (["t0", "t1"].get ⟨1, by decide⟩) =
      some (((["t0", "t1"].take 2).map fun t =>
        ((resultDf env2 "all").data ("watt_hours", "Total") t).getD 0).sum) ∧
    ((resultDf env2 "all").data ("watt_hours", "Total")
        (["t0", "t1"].get ⟨1, by decide⟩)).isSome :=
  total_cumsum_is_running_sum_prequantization env2 "all" ["t0", "t1"]
    (by decide) (by decide) (by decide) (by decide) (by decide)
    (fun p hp => by
      have h3 : p ∈ ["A", "B"] := hp
      rcases (by simpa using h3 : p = "A" ∨ p = "B") with h | h
      · subst h; exact ⟨frA, by with_unfolding_all rfl, rfl, rfl⟩
      · subst h; exact ⟨frB, by with_unfolding_all rfl, rfl, rfl⟩)
    1 (by decide)

/-- C10 counterexample: in the rounded response, the cumsum Total at the
second timestamp is 1 while both watt_hours Total cells round to 0, so the
reported cumsum Total is not the running sum of the reported watt_hours
Total. -/
theorem rounded_total_cumsum_refuted :
    ((post envFrac "all" "1h").toOption.map fun r =>
      nestedGet r.result "watt_hours_cumsum" "Total" "t1") = some (some 1) ∧
    ((post envFrac "all" "1h").toOption.map fun r =>
      nestedGet r.result "watt_hours" "Total" "t0") = some (some 0) ∧
    ((post envFrac "all" "1h").toOption.map fun r =>
      nestedGet r.result "watt_hours" "Total" "t1") = some (some 0) ∧
    some (1 : ℤ) ≠ some ((0 : ℤ) + 0) := by
  refine ⟨?_, ?_, ?_, by decide⟩ <;> with_unfolding_all rfl

end Pvcast
